import Mathlib

/-!
Shallow embedding of the CHIP-8 interpreter of `src/chip8/base.py`
(class `CHIP8Interpreter`) and proofs about its instruction semantics.

Modelling conventions, chosen to match Python semantics exactly:
* Python integers are unbounded and signed, so every numeric cell is `Int`.
  `a & b`, `a | b`, `a ^ b`, `a >> n` on Python ints are `Int.land`,
  `Int.lor`, `Int.xor` and `Int.shiftRight`; `a << n` is `<<<` on `ℤ`;
  `a % b` and the truncating divisions used by the code (whose operands are
  non-negative at those points) are `Int.emod` / `Int.ediv`, which agree
  with Python `%` and `//` everywhere.
* The Python lists `memory`, `gpio` and `display` are modelled as total
  functions from `Int`; every index the verified code paths touch is inside
  the list bounds, where the two views agree.  The display only ever holds
  the values `0` and `1` (it is zero-initialised and mutated only by `^= 1`
  and by clearing), so its cells are modelled as `Nat`.
* The `deque` call stack is a `List Int` whose right end is the top.
* `random.randint(0, 0xFF)` in `_Cxkk` is external nondeterminism; the drawn
  byte is threaded through the state as the oracle field `rand`.
* The abstract methods (`read_keyboard`, `draw`, `play_sound`) are frontend
  hooks; `update_timers` returns, next to the state, the Bool
  "`play_sound` was called during this tick".
* `_run_instruction` can re-enter itself via the `_0000`/`_8000`/`_E000`/
  `_F000` family splitters, so the embedding carries a recursion-depth fuel;
  every dispatch studied here resolves within any positive fuel.
-/

namespace ChipEight

/-- Pointwise update of a list-as-function at one index. -/
def upd {α : Type} (f : Int → α) (i : Int) (v : α) : Int → α :=
  fun j => if j = i then v else f j

/-- Constant `MEMORY_START = 0x200` of `CHIP8Interpreter`. -/
def MEMORY_START : Int := 0x200

/-- Constant `MEMORY_SIZE = 4096` of `CHIP8Interpreter`. -/
def MEMORY_SIZE : Int := 4096

/-- Constant `ROWS = 64` of `CHIP8Interpreter` (the display width). -/
def ROWS : Int := 64

/-- Constant `COLUMNS = 32` of `CHIP8Interpreter` (the display height). -/
def COLUMNS : Int := 32

/-- Value of `self.DISPLAY_SIZE = len(self.display) = 64 * 32`. -/
def DISPLAY_SIZE : Int := 2048

/-- Machine state of `CHIP8Interpreter` (the attributes set in `__init__`,
plus `op_code`, which `process_op_code` stores on `self`, and the `rand`
oracle for `_Cxkk`). -/
structure Chip8 where
  delay_timer : Int
  sound_timer : Int
  stack : List Int
  display : Int → Nat
  memory : Int → Int
  gpio : Int → Int
  I : Int
  program_counter : Int
  stack_counter : Int
  working : Bool
  drawing : Bool
  pressed_key : List Int
  op_code : Int
  rand : Int

/-- Property `vx`: `(self.op_code & 0x0F00) >> 8`. -/
def vxOf (op : Int) : Int := Int.shiftRight (Int.land op 0x0F00) 8

/-- Property `vy`: `(self.op_code & 0x00F0) >> 4`. -/
def vyOf (op : Int) : Int := Int.shiftRight (Int.land op 0x00F0) 4

/-- Method `_00E0` (CLS): clear the display, mark dirty. -/
def op_00E0 (s : Chip8) : Chip8 :=
  { s with display := fun _ => 0, drawing := true }

/-- Method `_00EE` (RET): `self.program_counter = self.stack.pop()`.
`deque.pop` removes the right end; Python raises `IndexError` on an empty
deque, modelled here by leaving the state unchanged on that (unclaimed)
path. -/
def op_00EE (s : Chip8) : Chip8 :=
  match s.stack.getLast? with
  | some a => { s with program_counter := a, stack := s.stack.dropLast }
  | none => s

/-- Method `_0nnn` (SYS addr): `self.program_counter = self.op_code & 0x0FFF`. -/
def op_0nnn (s : Chip8) : Chip8 :=
  { s with program_counter := Int.land s.op_code 0x0FFF }

/-- Method `_1nnn` (JP addr). -/
def op_1nnn (s : Chip8) : Chip8 :=
  { s with program_counter := Int.land s.op_code 0x0FFF }

/-- Method `_2nnn` (CALL addr): `self.stack.append(self.program_counter)`
then `self.program_counter = self.op_code & 0x0FFF`.  `deque.append` pushes
on the right end; no capacity check is performed. -/
def op_2nnn (s : Chip8) : Chip8 :=
  { s with stack := s.stack ++ [s.program_counter],
           program_counter := Int.land s.op_code 0x0FFF }

/-- Method `_3xkk` (SE Vx, byte). -/
def op_3xkk (s : Chip8) : Chip8 :=
  if s.gpio (vxOf s.op_code) = Int.land s.op_code 0x00FF then
    { s with program_counter := s.program_counter + 2 }
  else s

/-- Method `_4xkk` (SNE Vx, byte). -/
def op_4xkk (s : Chip8) : Chip8 :=
  if s.gpio (vxOf s.op_code) ≠ Int.land s.op_code 0x00FF then
    { s with program_counter := s.program_counter + 2 }
  else s

/-- Method `_5xy0` (SE Vx, Vy). -/
def op_5xy0 (s : Chip8) : Chip8 :=
  if s.gpio (vxOf s.op_code) = s.gpio (vyOf s.op_code) then
    { s with program_counter := s.program_counter + 2 }
  else s

/-- Method `_6xkk` (LD Vx, byte). -/
def op_6xkk (s : Chip8) : Chip8 :=
  { s with gpio := upd s.gpio (vxOf s.op_code) (Int.land s.op_code 0x00FF) }

/-- Method `_7xkk` (ADD Vx, byte): `self.gpio[self.vx] += kk` then
`self.gpio[self.vx] &= 0xFF`. -/
def op_7xkk (s : Chip8) : Chip8 :=
  let kk := Int.land s.op_code 0x00FF
  let g1 := upd s.gpio (vxOf s.op_code) (s.gpio (vxOf s.op_code) + kk)
  { s with gpio := upd g1 (vxOf s.op_code) (Int.land (g1 (vxOf s.op_code)) 0xFF) }

/-- Method `_8xy0` (LD Vx, Vy). -/
def op_8xy0 (s : Chip8) : Chip8 :=
  { s with gpio := upd s.gpio (vxOf s.op_code) (s.gpio (vyOf s.op_code)) }

/-- Method `_8xy1` (OR Vx, Vy). -/
def op_8xy1 (s : Chip8) : Chip8 :=
  let v := Int.lor (s.gpio (vxOf s.op_code)) (s.gpio (vyOf s.op_code))
  { s with gpio := upd s.gpio (vxOf s.op_code) v }

/-- Method `_8xy2` (AND Vx, Vy). -/
def op_8xy2 (s : Chip8) : Chip8 :=
  let v := Int.land (s.gpio (vxOf s.op_code)) (s.gpio (vyOf s.op_code))
  { s with gpio := upd s.gpio (vxOf s.op_code) v }

/-- Method `_8xy3` (XOR Vx, Vy). -/
def op_8xy3 (s : Chip8) : Chip8 :=
  let v := Int.xor (s.gpio (vxOf s.op_code)) (s.gpio (vyOf s.op_code))
  { s with gpio := upd s.gpio (vxOf s.op_code) v }

/-- Method `_8xy4` (ADD Vx, Vy): `sum = Vx + Vy`; `VF = 1 if sum > 0xFF
else 0`; `Vx = sum & 0xFF` (the `VF` write happens first, so for `x = 0xF`
the second write overwrites the flag). -/
def op_8xy4 (s : Chip8) : Chip8 :=
  let sum := s.gpio (vxOf s.op_code) + s.gpio (vyOf s.op_code)
  let g1 := upd s.gpio 0xF (if sum > 0xFF then 1 else 0)
  { s with gpio := upd g1 (vxOf s.op_code) (Int.land sum 0xFF) }

/-- Method `_8xy5` (SUB Vx, Vy): `sub = Vx - Vy`; `VF = 1 if sub > 0 else 0`;
`Vx = sub`.  Note there is no `& 0xFF` on the stored difference. -/
def op_8xy5 (s : Chip8) : Chip8 :=
  let sub := s.gpio (vxOf s.op_code) - s.gpio (vyOf s.op_code)
  let g1 := upd s.gpio 0xF (if sub > 0 then 1 else 0)
  { s with gpio := upd g1 (vxOf s.op_code) sub }

/-- Method `_8xy6` (SHR Vx): `VF = Vx & 0x1`; `Vx >>= 1`; `Vx &= 0xFF`
(each statement re-reads the register file, which matters when `x = 0xF`). -/
def op_8xy6 (s : Chip8) : Chip8 :=
  let x := vxOf s.op_code
  let g1 := upd s.gpio 0xF (Int.land (s.gpio x) 0x1)
  let g2 := upd g1 x (Int.shiftRight (g1 x) 1)
  { s with gpio := upd g2 x (Int.land (g2 x) 0xFF) }

/-- Method `_8xy7` (SUBN Vx, Vy): `sub = Vy - Vx`; `VF = 1 if sub > 0 else
0`; `Vx = sub`.  As in `_8xy5` the difference is stored unmasked. -/
def op_8xy7 (s : Chip8) : Chip8 :=
  let sub := s.gpio (vyOf s.op_code) - s.gpio (vxOf s.op_code)
  let g1 := upd s.gpio 0xF (if sub > 0 then 1 else 0)
  { s with gpio := upd g1 (vxOf s.op_code) sub }

/-- Method `_8xyE` (SHL Vx): `VF = (Vx >> 7) & 0x1`; `Vx <<= 1`; `Vx &= 0xFF`. -/
def op_8xyE (s : Chip8) : Chip8 :=
  let x := vxOf s.op_code
  let g1 := upd s.gpio 0xF (Int.land (Int.shiftRight (s.gpio x) 7) 0x1)
  let g2 := upd g1 x (g1 x <<< (1 : Int))
  { s with gpio := upd g2 x (Int.land (g2 x) 0xFF) }

/-- Method `_9xy0` (SNE Vx, Vy). -/
def op_9xy0 (s : Chip8) : Chip8 :=
  if s.gpio (vxOf s.op_code) ≠ s.gpio (vyOf s.op_code) then
    { s with program_counter := s.program_counter + 2 }
  else s

/-- Method `_Annn` (LD I, addr). -/
def op_Annn (s : Chip8) : Chip8 :=
  { s with I := Int.land s.op_code 0x0FFF }

/-- Method `_Bnnn` (JP V0, addr). -/
def op_Bnnn (s : Chip8) : Chip8 :=
  { s with program_counter := Int.land s.op_code 0x0FFF + s.gpio 0 }

/-- Method `_Cxkk` (RND Vx, byte): `(random_byte & kk) & 0xFF` with the
drawn byte supplied by the `rand` oracle field. -/
def op_Cxkk (s : Chip8) : Chip8 :=
  let kk := Int.land s.op_code 0x00FF
  { s with gpio := upd s.gpio (vxOf s.op_code) (Int.land (Int.land s.rand kk) 0xFF) }

/-- One inner-loop step of `_Dxyn`: test sprite bit `0x80 >> row` of
`pixel` and, when set, read the display cell at the wrapped flat index,
raise the collision accumulator if it was 1, and toggle it.
The accumulator is the pair (display, collision flag value). -/
def dxynStep (x y : Int) (col : Nat) (pixel : Int) (acc : (Int → Nat) × Int)
    (row : Nat) : (Int → Nat) × Int :=
  if Int.land pixel (Int.shiftRight 0x80 row) = 0 then acc
  else
    let idx := ((x + row) % ROWS + (y + col) % COLUMNS * ROWS) % DISPLAY_SIZE
    (upd acc.1 idx (acc.1 idx ^^^ 1), if acc.1 idx = 1 then 1 else acc.2)

/-- The two nested loops of `_Dxyn`: `for col in range(height)` reading
`pixel = memory[I + col]`, then `for row in range(length)` with
`length = 8`. -/
def drawRows (x y : Int) (mem : Int → Int) (I : Int) (n : Nat)
    (acc : (Int → Nat) × Int) : (Int → Nat) × Int :=
  (List.range n).foldl
    (fun a col => (List.range 8).foldl (dxynStep x y col (mem (I + col))) a) acc

/-- Method `_Dxyn` (DRW Vx, Vy, nibble): `x = Vx & 0xFF`, `y = Vy & 0xFF`,
`height = op_code & 0x000F`, `VF = 0`, then the nested sprite loops, and
`drawing = True`. -/
def op_Dxyn (s : Chip8) : Chip8 :=
  let x := Int.land (s.gpio (vxOf s.op_code)) 0xFF
  let y := Int.land (s.gpio (vyOf s.op_code)) 0xFF
  let height := Int.land s.op_code 0x000F
  let dv := drawRows x y s.memory s.I height.toNat (s.display, 0)
  { s with display := dv.1, gpio := upd s.gpio 0xF dv.2, drawing := true }

/-- Method `_Ex9E` (SKP Vx). -/
def op_Ex9E (s : Chip8) : Chip8 :=
  if s.gpio (vxOf s.op_code) ∈ s.pressed_key then
    { s with program_counter := s.program_counter + 2 }
  else s

/-- Method `_ExA1` (SKNP Vx). -/
def op_ExA1 (s : Chip8) : Chip8 :=
  if s.gpio (vxOf s.op_code) ∉ s.pressed_key then
    { s with program_counter := s.program_counter + 2 }
  else s

/-- Method `_Fx07` (LD Vx, DT). -/
def op_Fx07 (s : Chip8) : Chip8 :=
  { s with gpio := upd s.gpio (vxOf s.op_code) s.delay_timer }

/-- Method `_Fx0A` (LD Vx, K): rewind the program counter when no key is
pressed, then `for key in self.pressed_key: self.gpio[self.vx] = key`
(set iteration modelled by the list order). -/
def op_Fx0A (s : Chip8) : Chip8 :=
  let s1 := if s.pressed_key = [] then
    { s with program_counter := s.program_counter - 2 } else s
  { s1 with gpio := s1.pressed_key.foldl (fun g k => upd g (vxOf s1.op_code) k) s1.gpio }

/-- Method `_Fx15` (LD DT, Vx). -/
def op_Fx15 (s : Chip8) : Chip8 :=
  { s with delay_timer := s.gpio (vxOf s.op_code) }

/-- Method `_Fx18` (LD ST, Vx). -/
def op_Fx18 (s : Chip8) : Chip8 :=
  { s with sound_timer := s.gpio (vxOf s.op_code) }

/-- Method `_Fx1E` (ADD I, Vx):
`self.VF = 1 if (self.VF + self.gpio[self.vx]) > 0xFFF else 0` followed by
`self.I += self.gpio[self.vx]`.  The comparison really reads `self.VF`,
not `self.I`, and the increment re-reads the register file after the flag
write. -/
def op_Fx1E (s : Chip8) : Chip8 :=
  let g1 := upd s.gpio 0xF
    (if s.gpio 0xF + s.gpio (vxOf s.op_code) > 0xFFF then 1 else 0)
  { s with gpio := g1, I := s.I + g1 (vxOf s.op_code) }

/-- Method `_Fx29` (LD F, Vx): `I = Vx * FONT_SIZE_IN_BYTES`. -/
def op_Fx29 (s : Chip8) : Chip8 :=
  { s with I := s.gpio (vxOf s.op_code) * 0x5 }

/-- Method `_Fx33` (LD B, Vx): BCD digits of Vx into `memory[I..I+2]`.
`int((vx % 1000) / 100)` truncates a non-negative quotient, which is
`Int.ediv` on the non-negative `vx % 1000`. -/
def op_Fx33 (s : Chip8) : Chip8 :=
  let v := s.gpio (vxOf s.op_code)
  let hundreds := v % 1000 / 100
  let tens := v % 100 / 10
  let ones := v % 10
  { s with memory := upd (upd (upd s.memory s.I hundreds) (s.I + 1) tens) (s.I + 2) ones }

/-- Method `_Fx55` (LD [I], Vx): `for i in range(self.vx):
memory[I + i] = gpio[i]` then `self.I += self.vx + 1`.  Note the loop runs
`range(self.vx)`, i.e. it copies `V0` through `V(x-1)` only. -/
def op_Fx55 (s : Chip8) : Chip8 :=
  let x := vxOf s.op_code
  let mem := (List.range x.toNat).foldl
    (fun m i => upd m (s.I + i) (s.gpio i)) s.memory
  { s with memory := mem, I := s.I + x + 1 }

/-- Method `_Fx65` (LD Vx, [I]): `for i in range(self.vx):
gpio[i] = memory[I + i]` then `self.I += self.vx + 1`.  As in `_Fx55` the
loop covers `V0` through `V(x-1)` only. -/
def op_Fx65 (s : Chip8) : Chip8 :=
  let x := vxOf s.op_code
  let g := (List.range x.toNat).foldl
    (fun g i => upd g i (s.memory (s.I + i))) s.gpio
  { s with gpio := g, I := s.I + x + 1 }

/-- Method `unknown_op_code`: logs and leaves the state untouched. -/
def unknown_op_code (s : Chip8) : Chip8 := s

/-- Method `update_timers`, returning also whether `play_sound` was called
(the sound timer was decremented and reached zero). -/
def update_timers (s : Chip8) : Chip8 × Bool :=
  let s1 := if s.delay_timer > 0 then { s with delay_timer := s.delay_timer - 1 } else s
  if s1.sound_timer > 0 then
    let s2 := { s1 with sound_timer := s1.sound_timer - 1 }
    (s2, s2.sound_timer == 0)
  else (s1, false)

/-- Method `_run_instruction` together with the family splitters `_0000`,
`_8000`, `_E000` and `_F000`: look `code` up in `OPS_MAPPING` (a
`defaultdict` whose default is `unknown_op_code`) and run the handler.
The splitters re-enter `_run_instruction` on the sub-discriminated code;
the embedding bounds that recursion with `fuel` (out of fuel returns the
state unchanged; every dispatch studied below resolves at any fuel). -/
def runInstruction : Nat → Int → Chip8 → Chip8
  | fuel, code, s =>
    if code = 0x0000 then
      let c := Int.land s.op_code 0xF0FF
      if c = 0x0000 then op_0nnn s
      else match fuel with
        | 0 => s
        | f + 1 => runInstruction f c s
    else if code = 0x00E0 then op_00E0 s
    else if code = 0x00EE then op_00EE s
    else if code = 0x1000 then op_1nnn s
    else if code = 0x2000 then op_2nnn s
    else if code = 0x3000 then op_3xkk s
    else if code = 0x4000 then op_4xkk s
    else if code = 0x5000 then op_5xy0 s
    else if code = 0x6000 then op_6xkk s
    else if code = 0x7000 then op_7xkk s
    else if code = 0x8000 then
      let c := Int.land s.op_code 0xF00F
      if c = 0x8000 then op_8xy0 s
      else match fuel with
        | 0 => s
        | f + 1 => runInstruction f c s
    else if code = 0x8001 then op_8xy1 s
    else if code = 0x8002 then op_8xy2 s
    else if code = 0x8003 then op_8xy3 s
    else if code = 0x8004 then op_8xy4 s
    else if code = 0x8005 then op_8xy5 s
    else if code = 0x8006 then op_8xy6 s
    else if code = 0x8007 then op_8xy7 s
    else if code = 0x800E then op_8xyE s
    else if code = 0x9000 then op_9xy0 s
    else if code = 0xA000 then op_Annn s
    else if code = 0xB000 then op_Bnnn s
    else if code = 0xC000 then op_Cxkk s
    else if code = 0xD000 then op_Dxyn s
    else if code = 0xE000 then
      let c := Int.land s.op_code 0xF0FF
      match fuel with
      | 0 => s
      | f + 1 => runInstruction f c s
    else if code = 0xE09E then op_Ex9E s
    else if code = 0xE0A1 then op_ExA1 s
    else if code = 0xF000 then
      let c := Int.land s.op_code 0xF0FF
      match fuel with
      | 0 => s
      | f + 1 => runInstruction f c s
    else if code = 0xF007 then op_Fx07 s
    else if code = 0xF00A then op_Fx0A s
    else if code = 0xF015 then op_Fx15 s
    else if code = 0xF018 then op_Fx18 s
    else if code = 0xF01E then op_Fx1E s
    else if code = 0xF029 then op_Fx29 s
    else if code = 0xF033 then op_Fx33 s
    else if code = 0xF055 then op_Fx55 s
    else if code = 0xF065 then op_Fx65 s
    else unknown_op_code s

/-- Method `process_op_code`: fetch the big-endian 16-bit word at the
program counter, store it in `op_code`, advance the program counter by 2,
and dispatch on `op_code & 0xF000`. -/
def process_op_code (fuel : Nat) (s : Chip8) : Chip8 :=
  let op := Int.lor (s.memory s.program_counter <<< (8 : Int))
    (s.memory (s.program_counter + 1))
  let s1 := { s with op_code := op, program_counter := s.program_counter + 2 }
  runInstruction fuel (Int.land op 0xF000) s1

/-! ## Generic lemmas about the embedding -/

theorem upd_same {α : Type} (f : Int → α) (i : Int) (v : α) : upd f i v i = v := by
  simp [upd]

theorem upd_ne {α : Type} (f : Int → α) (i : Int) (v : α) {j : Int} (h : j ≠ i) :
    upd f i v j = f j := by
  simp [upd, h]

/-- Dispatching the family code `0x5000` always runs the `_5xy0` handler,
whatever the low bits of the fetched word are. -/
theorem runInstruction_5000 (fuel : Nat) (s : Chip8) :
    runInstruction fuel 0x5000 s = op_5xy0 s := by
  cases fuel <;> rfl

/-- Dispatching the family code `0x0000` runs `_0nnn` whenever the `_0000`
splitter sees `op_code & 0xF0FF == 0x0000`. -/
theorem runInstruction_0000 (fuel : Nat) (s : Chip8)
    (h : Int.land s.op_code 0xF0FF = 0) :
    runInstruction fuel 0x0000 s = op_0nnn s := by
  cases fuel <;> · show (if Int.land s.op_code 0xF0FF = 0 then op_0nnn s else _) = op_0nnn s
                   rw [if_pos h]

/-- Masking an 8-bit value with `0xFF` is the identity. -/
theorem land255_eq_self {a : Int} (h0 : 0 ≤ a) (h1 : a ≤ 255) :
    Int.land a 0xFF = a := by
  obtain ⟨m, rfl⟩ := Int.eq_ofNat_of_zero_le h0
  show ((m &&& 255 : Nat) : Int) = (m : Int)
  have h2 : m &&& 255 = m % 256 := by
    simpa using Nat.and_pow_two_sub_one_eq_mod m 8
  rw [h2]
  omega

/-- The low nibble of a non-negative word is at most 15. -/
theorem land15_toNat_le {op : Int} (h : 0 ≤ op) :
    (Int.land op 0x000F).toNat ≤ 15 := by
  obtain ⟨m, rfl⟩ := Int.eq_ofNat_of_zero_le h
  show ((m &&& 15 : Nat) : Int).toNat ≤ 15
  have : m &&& 15 ≤ 15 := Nat.and_le_right
  simpa using this

/-! ## Analysis of the `_Dxyn` sprite loops

The two nested loops of `_Dxyn` are flattened to a single fold over the
list of (sprite row, bit column) pairs, and that fold is characterised
cell by cell.  Distinct pairs always land on distinct display cells
because the sprite is at most 15 rows tall and 8 columns wide. -/

/-- Flat display index written by sprite pair `p = (col, row)` at origin
`(x, y)`: the index expression of `_Dxyn`. -/
def tgt (x y : Int) (p : Nat × Nat) : Int :=
  ((x + p.2) % ROWS + (y + p.1) % COLUMNS * ROWS) % DISPLAY_SIZE

/-- Sprite pair `p = (col, row)` has its bit set in the sprite data:
the loop guard `pixel & (0x80 >> row)` of `_Dxyn` is non-zero. -/
def hitp (mem : Int → Int) (I : Int) (p : Nat × Nat) : Prop :=
  Int.land (mem (I + p.1)) (Int.shiftRight 0x80 p.2) ≠ 0

/-- One `_Dxyn` inner-loop step, as a function of the (row, bit) pair. -/
def pairStep (x y : Int) (mem : Int → Int) (I : Int) (acc : (Int → Nat) × Int)
    (p : Nat × Nat) : (Int → Nat) × Int :=
  dxynStep x y p.1 (mem (I + p.1)) acc p.2

/-- All (sprite row, bit column) pairs visited by the `_Dxyn` loops, in
iteration order. -/
def rowPairs : Nat → List (Nat × Nat)
  | 0 => []
  | n + 1 => rowPairs n ++ (List.range 8).map (fun row => (n, row))

theorem drawRows_eq_foldl (x y : Int) (mem : Int → Int) (I : Int) (n : Nat)
    (acc : (Int → Nat) × Int) :
    drawRows x y mem I n acc = (rowPairs n).foldl (pairStep x y mem I) acc := by
  induction n generalizing acc with
  | zero => rfl
  | succ n ih =>
    show (List.range (n + 1)).foldl _ acc = (rowPairs (n + 1)).foldl _ acc
    rw [rowPairs, List.foldl_append, List.foldl_map, List.range_succ n,
      List.foldl_append, ← ih acc]
    rfl

theorem mem_rowPairs (n : Nat) (p : Nat × Nat) :
    p ∈ rowPairs n ↔ p.1 < n ∧ p.2 < 8 := by
  obtain ⟨c, r⟩ := p
  induction n with
  | zero => simp [rowPairs]
  | succ n ih =>
    simp only [rowPairs, List.mem_append, ih, List.mem_map, List.mem_range]
    constructor
    · rintro (⟨h1, h2⟩ | ⟨a, ha, h⟩)
      · exact ⟨Nat.lt_succ_of_lt h1, h2⟩
      · injection h with h1 h2
        omega
    · rintro ⟨h1, h2⟩
      rcases Nat.lt_succ_iff_lt_or_eq.mp h1 with h | rfl
      · exact Or.inl ⟨h, h2⟩
      · exact Or.inr ⟨r, h2, rfl⟩

theorem nodup_rowPairs (n : Nat) : (rowPairs n).Nodup := by
  induction n with
  | zero => exact List.nodup_nil
  | succ n ih =>
    rw [rowPairs, List.nodup_append]
    refine ⟨ih, ?_, ?_⟩
    · exact ((List.nodup_range 8).map (fun a b h => by injection h))
    · intro p hp hq
      rw [mem_rowPairs] at hp
      obtain ⟨a, _, rfl⟩ := List.mem_map.mp hq
      omega

/-- Distinct in-range sprite pairs write distinct display cells: the two
axes wrap independently, the sprite spans at most 32 rows and 8 columns. -/
theorem tgt_inj (x y : Int) {n : Nat} (hn : n ≤ 32) {p q : Nat × Nat}
    (hp1 : p.1 < n) (hp2 : p.2 < 8) (hq1 : q.1 < n) (hq2 : q.2 < 8)
    (h : tgt x y p = tgt x y q) : p = q := by
  obtain ⟨a, b⟩ := p
  obtain ⟨c, d⟩ := q
  simp only [tgt, ROWS, COLUMNS, DISPLAY_SIZE] at h
  simp only [Prod.mk.injEq]
  simp only [] at hp1 hp2 hq1 hq2
  omega

theorem pairwise_tgt_rowPairs (x y : Int) (n : Nat) (hn : n ≤ 32) :
    (rowPairs n).Pairwise (fun p q => tgt x y p ≠ tgt x y q) := by
  refine (nodup_rowPairs n).imp_of_mem ?_
  intro p q hp hq hne htgt
  rw [mem_rowPairs] at hp hq
  exact hne (tgt_inj x y hn hp.1 hp.2 hq.1 hq.2 htgt)

/-- The flat index of `_Dxyn` never reaches `DISPLAY_SIZE`, so the final
`% 2048` is the identity. -/
theorem tgt_eq (x y : Int) (p : Nat × Nat) :
    tgt x y p = (x + p.2) % 64 + (y + p.1) % 32 * 64 := by
  simp only [tgt, ROWS, COLUMNS, DISPLAY_SIZE]
  omega

/-- Cell-by-cell characterisation of the flattened `_Dxyn` fold: when all
visited pairs target pairwise distinct cells, a cell targeted by a set
sprite bit is toggled, every other cell is untouched, and the collision
accumulator ends at 1 exactly when some set sprite bit targets a cell that
initially holds 1 (and keeps its initial value otherwise). -/
theorem foldl_pairStep_char (x y : Int) (mem : Int → Int) (I : Int)
    (L : List (Nat × Nat)) (d0 : Int → Nat) (v0 : Int)
    (hpw : L.Pairwise (fun p q => tgt x y p ≠ tgt x y q)) :
    (∀ j : Int,
      ((∃ p ∈ L, hitp mem I p ∧ tgt x y p = j) →
        (L.foldl (pairStep x y mem I) (d0, v0)).1 j = d0 j ^^^ 1) ∧
      ((∀ p ∈ L, ¬(hitp mem I p ∧ tgt x y p = j)) →
        (L.foldl (pairStep x y mem I) (d0, v0)).1 j = d0 j)) ∧
    ((∃ p ∈ L, hitp mem I p ∧ d0 (tgt x y p) = 1) →
      (L.foldl (pairStep x y mem I) (d0, v0)).2 = 1) ∧
    ((∀ p ∈ L, ¬(hitp mem I p ∧ d0 (tgt x y p) = 1)) →
      (L.foldl (pairStep x y mem I) (d0, v0)).2 = v0) := by
  induction L generalizing d0 v0 with
  | nil =>
    refine ⟨fun j => ⟨?_, ?_⟩, ?_, ?_⟩
    · rintro ⟨p, hp, -⟩
      exact absurd hp (List.not_mem_nil p)
    · intro _
      rfl
    · rintro ⟨p, hp, -⟩
      exact absurd hp (List.not_mem_nil p)
    · intro _
      rfl
  | cons p L ih =>
    have hpw1 : ∀ q ∈ L, tgt x y p ≠ tgt x y q := (List.pairwise_cons.mp hpw).1
    have hpw2 := (List.pairwise_cons.mp hpw).2
    by_cases hp : Int.land (mem (I + p.1)) (Int.shiftRight 0x80 p.2) = 0
    · -- the sprite bit is clear: the step is the identity
      have hstep : pairStep x y mem I (d0, v0) p = (d0, v0) := by
        unfold pairStep dxynStep
        rw [if_pos hp]
      have hnhit : ¬ hitp mem I p := fun hh => hh hp
      obtain ⟨ihd, ihf1, ihf2⟩ := ih d0 v0 hpw2
      refine ⟨fun j => ⟨?_, ?_⟩, ?_, ?_⟩ <;>
        simp only [List.foldl_cons, hstep]
      · rintro ⟨q, hq, hqhit, hqtgt⟩
        rcases List.mem_cons.mp hq with rfl | hq2
        · exact absurd hqhit hnhit
        · exact (ihd j).1 ⟨q, hq2, hqhit, hqtgt⟩
      · intro hall
        exact (ihd j).2 fun q hq => hall q (List.mem_cons_of_mem _ hq)
      · rintro ⟨q, hq, hqhit, hqd⟩
        rcases List.mem_cons.mp hq with rfl | hq2
        · exact absurd hqhit hnhit
        · exact ihf1 ⟨q, hq2, hqhit, hqd⟩
      · intro hall
        exact ihf2 fun q hq => hall q (List.mem_cons_of_mem _ hq)
    · -- the sprite bit is set: the step toggles the target cell
      have hhit : hitp mem I p := hp
      have hstep : pairStep x y mem I (d0, v0) p =
          (upd d0 (tgt x y p) (d0 (tgt x y p) ^^^ 1),
            if d0 (tgt x y p) = 1 then 1 else v0) := by
        unfold pairStep dxynStep
        rw [if_neg hp]
        rfl
      obtain ⟨ihd, ihf1, ihf2⟩ := ih (upd d0 (tgt x y p) (d0 (tgt x y p) ^^^ 1))
        (if d0 (tgt x y p) = 1 then 1 else v0) hpw2
      have hat : ∀ j : Int, j ≠ tgt x y p →
          upd d0 (tgt x y p) (d0 (tgt x y p) ^^^ 1) j = d0 j :=
        fun j hj => upd_ne _ _ _ hj
      have hattgt : upd d0 (tgt x y p) (d0 (tgt x y p) ^^^ 1) (tgt x y p) =
          d0 (tgt x y p) ^^^ 1 := upd_same _ _ _
      refine ⟨fun j => ⟨?_, ?_⟩, ?_, ?_⟩ <;>
        simp only [List.foldl_cons, hstep]
      · rintro ⟨q, hq, hqhit, hqtgt⟩
        rcases List.mem_cons.mp hq with rfl | hq2
        · -- q = p: no later pair hits the same cell
          have hnone : ∀ r ∈ L,
              ¬(hitp mem I r ∧ tgt x y r = j) := by
            rintro r hr ⟨-, hrt⟩
            rw [← hqtgt] at hrt
            exact hpw1 r hr hrt.symm
          rw [(ihd j).2 hnone, ← hqtgt, hattgt]
        · -- q comes later in the list
          have hne : j ≠ tgt x y p := by
            rw [← hqtgt]
            intro hcontra
            exact hpw1 q hq2 hcontra.symm
          rw [(ihd j).1 ⟨q, hq2, hqhit, hqtgt⟩, hat j hne]
      · intro hall
        have hne : j ≠ tgt x y p := by
          intro hj
          exact hall p (List.mem_cons_self p L) ⟨hhit, hj.symm⟩
        rw [(ihd j).2 ?_, hat j hne]
        rintro q hq ⟨hqhit, hqtgt⟩
        exact hall q (List.mem_cons_of_mem _ hq) ⟨hqhit, hqtgt⟩
      · rintro ⟨q, hq, hqhit, hqd⟩
        rcases List.mem_cons.mp hq with rfl | hq2
        · -- q = p: the flag is raised by this very step
          by_cases hEx : ∃ r ∈ L, hitp mem I r ∧
              upd d0 (tgt x y q) (d0 (tgt x y q) ^^^ 1) (tgt x y r) = 1
          · exact ihf1 hEx
          · rw [ihf2 fun r hr hcontra => hEx ⟨r, hr, hcontra⟩, if_pos hqd]
        · have hne : tgt x y q ≠ tgt x y p := fun hcontra =>
            hpw1 q hq2 hcontra.symm
          refine ihf1 ⟨q, hq2, hqhit, ?_⟩
          rw [hat _ hne, hqd]
      · intro hall
        have h2 : (if d0 (tgt x y p) = 1 then (1 : Int) else v0) = v0 := by
          rw [if_neg]
          intro hcontra
          exact hall p (List.mem_cons_self p L) ⟨hhit, hcontra⟩
        rw [ihf2 ?_, h2]
        rintro r hr ⟨hrhit, hrd⟩
        have hne : tgt x y r ≠ tgt x y p := fun hcontra =>
          hpw1 r hr hcontra.symm
        rw [hat _ hne] at hrd
        exact hall r (List.mem_cons_of_mem _ hr) ⟨hrhit, hrd⟩

/-- Sprite height of the pending `_Dxyn` instruction: `op_code & 0x000F`. -/
def spriteHeight (s : Chip8) : Nat := (Int.land s.op_code 0x000F).toNat

/-- Sprite bit at row `col`, bit column `row` is set in the sprite data at
`memory[I + col]`. -/
def spriteBitSet (s : Chip8) (col row : Nat) : Prop :=
  Int.land (s.memory (s.I + col)) (Int.shiftRight 0x80 row) ≠ 0

/-- The flat display index claimed by the specification for sprite row
`col` and bit column `row`: `((Vx + b) mod 64) + ((Vy + r) mod 32) * 64`. -/
def drawIdx (s : Chip8) (col row : Nat) : Int :=
  (s.gpio (vxOf s.op_code) + row) % 64 + (s.gpio (vyOf s.op_code) + col) % 32 * 64

/-- Full statement of claim C7 for a state `s` about to execute `_Dxyn`:
every set sprite bit XOR-toggles the display cell at the per-axis-wrapped
flat index, clear bits and untargeted cells are unchanged, and the flag
register ends at 1 exactly when some cell flips from 1 to 0 (0 otherwise). -/
def DxynSpec (s : Chip8) : Prop :=
  (∀ col row : Nat, col < spriteHeight s → row < 8 → spriteBitSet s col row →
    (op_Dxyn s).display (drawIdx s col row) = s.display (drawIdx s col row) ^^^ 1) ∧
  (∀ col row : Nat, col < spriteHeight s → row < 8 → ¬ spriteBitSet s col row →
    (op_Dxyn s).display (drawIdx s col row) = s.display (drawIdx s col row)) ∧
  (∀ j : Int, (∀ col row : Nat, col < spriteHeight s → row < 8 →
      ¬(spriteBitSet s col row ∧ drawIdx s col row = j)) →
    (op_Dxyn s).display j = s.display j) ∧
  ((op_Dxyn s).gpio 0xF = 0 ∨ (op_Dxyn s).gpio 0xF = 1) ∧
  ((op_Dxyn s).gpio 0xF = 1 ↔ ∃ j : Int, s.display j = 1 ∧ (op_Dxyn s).display j = 0)

/-! ## Concrete machine states used by the claims -/

/-- Freshly initialised machine (all registers, memory and display zero,
program counter at `MEMORY_START`), as after `__init__` without the font
table (the font bytes play no role in the claims below). -/
def st0 : Chip8 :=
  { delay_timer := 0, sound_timer := 0, stack := [], display := fun _ => 0,
    memory := fun _ => 0, gpio := fun _ => 0, I := 0,
    program_counter := 0x200, stack_counter := 0, working := true,
    drawing := false, pressed_key := [], op_code := 0, rand := 0 }

/-- State about to run SUB V0,V1 (word `0x8015`) with V0 = 3, V1 = 5. -/
def c1s : Chip8 :=
  { st0 with op_code := 0x8015,
             gpio := fun i => if i = 0 then 3 else if i = 1 then 5 else 0 }

/-- State about to run SUBN V0,V1 (word `0x8017`) with V0 = 5, V1 = 3. -/
def c2s : Chip8 :=
  { st0 with op_code := 0x8017,
             gpio := fun i => if i = 0 then 5 else if i = 1 then 3 else 0 }

/-- Fresh machine whose ROM is the single word `0x5001` at `0x200`. -/
def c3s : Chip8 :=
  { st0 with memory := fun a =>
      if a = 0x200 then 0x50 else if a = 0x201 then 0x01 else 0 }

/-- State about to run LD [I],V1 (word `0xF155`) with I = `0x300`,
V0 = 7, and all memory zero. -/
def c4s : Chip8 :=
  { st0 with op_code := 0xF155, I := 0x300,
             gpio := fun i => if i = 0 then 7 else 0 }

/-- State about to run LD [I],V1 (word `0xF155`) with I = `0x300`,
V0 = 7, V1 = 9, and all memory zero. -/
def c5s : Chip8 :=
  { st0 with op_code := 0xF155, I := 0x300,
             gpio := fun i => if i = 0 then 7 else if i = 1 then 9 else 0 }

/-- State about to run ADD I,V1 (word `0xF11E`) with I = `0xFFF`, V1 = 1
and flag register 0. -/
def c6s : Chip8 :=
  { st0 with op_code := 0xF11E, I := 0xFFF,
             gpio := fun i => if i = 1 then 1 else 0 }

/-- State about to run DRW V0,V1,1 (word `0xD011`) at screen position
(60, 0), with a full 8-bit sprite row `0xFF` at I = `0x300`. -/
def c7s : Chip8 :=
  { st0 with op_code := 0xD011, I := 0x300,
             gpio := fun i => if i = 0 then 60 else 0,
             memory := fun a => if a = 0x300 then 0xFF else 0 }

/-- State about to run CALL `0x300` (word `0x2300`) with the call stack
already holding 16 return addresses. -/
def c8s : Chip8 :=
  { st0 with op_code := 0x2300, stack := List.replicate 16 0x200 }

/-- State with delay timer 3 and sound timer 1, about to tick. -/
def c9s : Chip8 :=
  { st0 with delay_timer := 3, sound_timer := 1 }

/-- Fresh machine whose ROM is the single word `0x0100` at `0x200`. -/
def c10s : Chip8 :=
  { st0 with memory := fun a => if a = 0x200 then 1 else 0 }

/-! ## The claims -/

/-- Claim C1 (code bug): SUB Vx,Vy is claimed to store `(Vx - Vy) mod 256`
in Vx, with flag 1 iff Vx > Vy; at Vx = 3, Vy = 5 the claimed result is
`0xFE`.  The handler `_8xy5` stores the raw Python difference without the
`& 0xFF` mask its sibling handlers apply, so V0 ends at the out-of-range
value -2 (the flag part, 0 here, does match the claim). -/
theorem sub_stores_unmasked_difference :
    c1s.gpio 0 = 3 ∧ c1s.gpio 1 = 5 ∧
    (op_8xy5 c1s).gpio 0 = -2 ∧ (op_8xy5 c1s).gpio 0 ≠ 0xFE ∧
    (op_8xy5 c1s).gpio 0xF = 0 := by
  decide

/-- Claim C2 (code bug): all arithmetic handlers are claimed to keep
result registers in [0, 255] from any in-range start.  SUBN (`_8xy7`, like
SUB `_8xy5`) stores the unmasked difference: from V0 = 5, V1 = 3 (all
registers in range) it leaves V0 = 3 - 5 = -2 < 0. -/
theorem subn_breaks_byte_range_invariant :
    c2s.gpio 0 = 5 ∧ c2s.gpio 1 = 3 ∧
    (op_8xy7 c2s).gpio 0 = -2 ∧ (op_8xy7 c2s).gpio 0 < 0 := by
  decide

/-- Claim C3 (counterexample): executing the word `0x5001` is claimed to
advance the program counter by exactly 2.  On the fresh machine holding
that word at `0x200` the cycle ends with the program counter at `0x204`,
not `0x202`: dispatch only inspects `op_code & 0xF000`, so `0x5001` runs
the SE Vx,Vy handler, which compares V0 with V0 and always skips. -/
theorem op5001_advances_pc_by_four :
    (process_op_code 2 c3s).program_counter = 0x204 ∧
    (process_op_code 2 c3s).program_counter ≠ c3s.program_counter + 2 := by
  decide

/-- Claim C3 (amended): executing the word `0x5001` does not halt and
leaves registers, memory, display, address register and stack unchanged,
but it is dispatched to the `_5xy0` (SE Vx,Vy) handler, which compares V0
with itself and therefore always skips: the program counter advances by 4
(fetch + skip), not 2. -/
theorem op5001_skips_like_se_vx_vy (fuel : Nat) (s : Chip8)
    (h1 : s.memory s.program_counter = 0x50)
    (h2 : s.memory (s.program_counter + 1) = 0x01) :
    (process_op_code fuel s).gpio = s.gpio ∧
    (process_op_code fuel s).memory = s.memory ∧
    (process_op_code fuel s).display = s.display ∧
    (process_op_code fuel s).I = s.I ∧
    (process_op_code fuel s).stack = s.stack ∧
    (process_op_code fuel s).working = s.working ∧
    (process_op_code fuel s).program_counter = s.program_counter + 4 := by
  have e1 : Int.lor ((0x50 : Int) <<< (8 : Int)) 0x01 = 0x5001 := by decide
  have e2 : Int.land (0x5001 : Int) 0xF000 = 0x5000 := by decide
  have hx : vxOf (0x5001 : Int) = 0 := by decide
  have hy : vyOf (0x5001 : Int) = 0 := by decide
  simp only [process_op_code, h1, h2, e1, e2, runInstruction_5000, op_5xy0, hx, hy]
  simp only [eq_self_iff_true, if_true]
  exact ⟨trivial, trivial, trivial, trivial, trivial, trivial, by ring⟩

/-- Claim C3 (witness): the amended statement applied to the concrete
machine `c3s` holding `0x5001` at `0x200`. -/
theorem op5001_skips_like_se_vx_vy_witness :
    (c3s.memory c3s.program_counter = 0x50 ∧
      c3s.memory (c3s.program_counter + 1) = 0x01) ∧
    ((process_op_code 2 c3s).gpio = c3s.gpio ∧
      (process_op_code 2 c3s).memory = c3s.memory ∧
      (process_op_code 2 c3s).display = c3s.display ∧
      (process_op_code 2 c3s).I = c3s.I ∧
      (process_op_code 2 c3s).stack = c3s.stack ∧
      (process_op_code 2 c3s).working = c3s.working ∧
      (process_op_code 2 c3s).program_counter = c3s.program_counter + 4) :=
  ⟨⟨by decide, by decide⟩, op5001_skips_like_se_vx_vy 2 c3s (by decide) (by decide)⟩

/-- Claim C4 (code bug): the store/load round trip `LD [I],Vx` then
`LD Vx,[I]` is claimed to restore V0..Vx.  With x = 1, I = `0x300`,
V0 = 7: `_Fx55` writes only V0 (its loop runs `range(self.vx)`, one
register short of its own docstring) and advances I to `0x302`, so the
immediately following `_Fx65` reloads V0 from the untouched byte at
`0x302` and V0 ends at 0, not 7. -/
theorem store_load_roundtrip_fails :
    c4s.gpio 0 = 7 ∧
    (op_Fx55 c4s).memory 0x300 = 7 ∧
    (op_Fx55 c4s).I = 0x302 ∧
    (op_Fx65 { op_Fx55 c4s with op_code := 0xF165 }).gpio 0 = 0 := by
  decide

/-- Claim C5 (code bug): `LD [I],Vx` is claimed to copy V0..Vx (x + 1
registers) to `memory[I..I+x]` and leave I unchanged.  With x = 1,
I = `0x300`, V0 = 7, V1 = 9, the handler `_Fx55` stores only V0 (the loop
`range(self.vx)` stops one register short of its docstring), leaves
`memory[0x301]` untouched at 0 instead of 9, and advances I to `0x302`. -/
theorem fx55_copies_too_few_and_advances_I :
    (op_Fx55 c5s).memory 0x300 = 7 ∧
    (op_Fx55 c5s).memory 0x301 = 0 ∧
    (op_Fx55 c5s).memory 0x301 ≠ 9 ∧
    (op_Fx55 c5s).I = 0x302 := by
  decide

/-- Claim C6 (code bug): ADD I,Vx is claimed to set the flag register to 1
iff `I + Vx` exceeds `0xFFF`.  The handler `_Fx1E` compares
`self.VF + gpio[vx]` (a typo for `self.I`) against `0xFFF`, so with
I = `0xFFF`, V1 = 1, VF = 0 the sum I + V1 = `0x1000` overflows but the
flag stays 0 (the unmasked `I += Vx` part does match the claim). -/
theorem fx1E_flag_reads_vf_not_I :
    c6s.I = 0xFFF ∧ c6s.gpio 1 = 1 ∧ c6s.gpio 0xF = 0 ∧
    (op_Fx1E c6s).I = 0x1000 ∧ (op_Fx1E c6s).gpio 0xF = 0 := by
  decide

/-- Claim C7: for every sprite drawn by DRW Vx,Vy,n (8-bit register
values, any sprite data), each set sprite bit at row r < n, column b < 8
is XOR-composited into the display cell at flat index
`((Vx + b) mod 64) + ((Vy + r) mod 32) * 64` (each axis wrapping
independently), all other cells are unchanged, and the flag register is
set to 1 iff some cell flips from 1 to 0, else 0. -/
theorem dxyn_xor_composites_and_detects_collision (s : Chip8)
    (hop : 0 ≤ s.op_code)
    (hx0 : 0 ≤ s.gpio (vxOf s.op_code)) (hx1 : s.gpio (vxOf s.op_code) ≤ 255)
    (hy0 : 0 ≤ s.gpio (vyOf s.op_code)) (hy1 : s.gpio (vyOf s.op_code) ≤ 255) :
    DxynSpec s := by
  have hX := land255_eq_self hx0 hx1
  have hY := land255_eq_self hy0 hy1
  have hn32 : spriteHeight s ≤ 32 := le_trans (land15_toNat_le hop) (by omega)
  have hpw := pairwise_tgt_rowPairs (s.gpio (vxOf s.op_code))
    (s.gpio (vyOf s.op_code)) (spriteHeight s) hn32
  obtain ⟨ihd, ihf1, ihf2⟩ := foldl_pairStep_char (s.gpio (vxOf s.op_code))
    (s.gpio (vyOf s.op_code)) s.memory s.I (rowPairs (spriteHeight s))
    s.display 0 hpw
  -- identify the two components of op_Dxyn with the flat fold
  have hdisp : (op_Dxyn s).display =
      ((rowPairs (spriteHeight s)).foldl
        (pairStep (s.gpio (vxOf s.op_code)) (s.gpio (vyOf s.op_code)) s.memory s.I)
        (s.display, 0)).1 := by
    simp only [op_Dxyn, hX, hY, drawRows_eq_foldl, spriteHeight]
  have hflag : (op_Dxyn s).gpio 0xF =
      ((rowPairs (spriteHeight s)).foldl
        (pairStep (s.gpio (vxOf s.op_code)) (s.gpio (vyOf s.op_code)) s.memory s.I)
        (s.display, 0)).2 := by
    simp only [op_Dxyn, hX, hY, drawRows_eq_foldl, spriteHeight]
    exact upd_same _ _ _
  have htgtIdx : ∀ col row : Nat, tgt (s.gpio (vxOf s.op_code))
      (s.gpio (vyOf s.op_code)) (col, row) = drawIdx s col row := by
    intro col row
    rw [tgt_eq]
    rfl
  refine ⟨?_, ?_, ?_, ?_, ?_⟩
  · -- set sprite pixels toggle their cell
    intro col row hcol hrow hbit
    rw [hdisp, ← htgtIdx col row]
    exact ((ihd _).1) ⟨(col, row), (mem_rowPairs _ _).mpr ⟨hcol, hrow⟩, hbit, rfl⟩
  · -- clear sprite pixels leave their cell alone (no aliasing)
    intro col row hcol hrow hbit
    rw [hdisp, ← htgtIdx col row]
    refine (ihd _).2 ?_
    rintro q hq ⟨hqhit, hqtgt⟩
    rw [mem_rowPairs] at hq
    have := tgt_inj (s.gpio (vxOf s.op_code)) (s.gpio (vyOf s.op_code)) hn32
      hq.1 hq.2 hcol hrow hqtgt
    rw [this] at hqhit
    exact hbit hqhit
  · -- frame: untargeted cells are unchanged
    intro j hnone
    rw [hdisp]
    refine (ihd j).2 ?_
    rintro q hq ⟨hqhit, hqtgt⟩
    rw [mem_rowPairs] at hq
    refine hnone q.1 q.2 hq.1 hq.2 ⟨hqhit, ?_⟩
    rw [← htgtIdx q.1 q.2, hqtgt]
  · -- the collision flag is 0 or 1
    rw [hflag]
    by_cases hEx : ∃ p ∈ rowPairs (spriteHeight s),
        hitp s.memory s.I p ∧ s.display (tgt (s.gpio (vxOf s.op_code))
          (s.gpio (vyOf s.op_code)) p) = 1
    · exact Or.inr (ihf1 hEx)
    · exact Or.inl (ihf2 fun r hr hcontra => hEx ⟨r, hr, hcontra⟩)
  · -- the collision flag is set iff some lit cell goes dark
    rw [hflag]
    constructor
    · intro h1
      by_cases hEx : ∃ p ∈ rowPairs (spriteHeight s),
          hitp s.memory s.I p ∧ s.display (tgt (s.gpio (vxOf s.op_code))
            (s.gpio (vyOf s.op_code)) p) = 1
      · obtain ⟨p, hpmem, hphit, hpd⟩ := hEx
        refine ⟨tgt (s.gpio (vxOf s.op_code)) (s.gpio (vyOf s.op_code)) p, hpd, ?_⟩
        rw [hdisp, (ihd _).1 ⟨p, hpmem, hphit, rfl⟩, hpd]
        decide
      · rw [ihf2 fun r hr hcontra => hEx ⟨r, hr, hcontra⟩] at h1
        exact absurd h1 (by decide)
    · rintro ⟨j, hdj, hd2j⟩
      by_cases hT : ∃ p ∈ rowPairs (spriteHeight s),
          hitp s.memory s.I p ∧ tgt (s.gpio (vxOf s.op_code))
            (s.gpio (vyOf s.op_code)) p = j
      · obtain ⟨p, hpmem, hphit, hptgt⟩ := hT
        refine ihf1 ⟨p, hpmem, hphit, ?_⟩
        rw [hptgt]
        exact hdj
      · rw [hdisp, (ihd j).2 fun q hq hcontra => hT ⟨q, hq, hcontra⟩, hdj] at hd2j
        exact absurd hd2j (by decide)

/-- Claim C7 (witness): the sprite theorem applied to a concrete DRW
V0,V1,1 at screen position (60, 0) with sprite row `0xFF`, the wrapping
example of the claim. -/
theorem dxyn_xor_composites_and_detects_collision_witness :
    (0 ≤ c7s.op_code ∧
      0 ≤ c7s.gpio (vxOf c7s.op_code) ∧ c7s.gpio (vxOf c7s.op_code) ≤ 255 ∧
      0 ≤ c7s.gpio (vyOf c7s.op_code) ∧ c7s.gpio (vyOf c7s.op_code) ≤ 255) ∧
    DxynSpec c7s :=
  ⟨⟨by decide, by decide, by decide, by decide, by decide⟩,
    dxyn_xor_composites_and_detects_collision c7s
      (by decide) (by decide) (by decide) (by decide) (by decide)⟩

/-- Claim C8 (counterexample): CALL at a full 16-entry stack is claimed to
fail with StackOverflow rather than push a seventeenth return address; the
handler `_2nnn` has no capacity check and the seventeenth entry is
pushed. -/
theorem call_at_full_stack_pushes_seventeenth :
    c8s.stack.length = 16 ∧ (op_2nnn c8s).stack.length = 17 := by
  decide

/-- Claim C8 (amended): from any state whose call stack holds 16 return
addresses, CALL addr simply appends the current program counter as a
seventeenth entry (the deque is unbounded, there is no StackOverflow
error anywhere in the interpreter) and jumps to nnn. -/
theorem call_always_pushes_unbounded (s : Chip8) (h : s.stack.length = 16) :
    (op_2nnn s).stack = s.stack ++ [s.program_counter] ∧
    (op_2nnn s).stack.length = 17 ∧
    (op_2nnn s).program_counter = Int.land s.op_code 0x0FFF := by
  refine ⟨rfl, ?_, rfl⟩
  show (s.stack ++ [s.program_counter]).length = 17
  simp [h]

/-- Claim C8 (witness): the amended statement at the concrete full-stack
state `c8s`. -/
theorem call_always_pushes_unbounded_witness :
    c8s.stack.length = 16 ∧
    ((op_2nnn c8s).stack = c8s.stack ++ [c8s.program_counter] ∧
      (op_2nnn c8s).stack.length = 17 ∧
      (op_2nnn c8s).program_counter = Int.land c8s.op_code 0x0FFF) :=
  ⟨by decide, call_always_pushes_unbounded c8s (by decide)⟩

/-- Claim C9: on a timer tick (`update_timers`) each of the delay and
sound timers decrements by exactly 1 when positive and stays at 0 when 0,
never going negative, and the sound event fires exactly when the sound
timer goes from 1 to 0. -/
theorem update_timers_tick_spec (s : Chip8) (hd : 0 ≤ s.delay_timer)
    (hs : 0 ≤ s.sound_timer) :
    (0 < s.delay_timer → (update_timers s).1.delay_timer = s.delay_timer - 1) ∧
    (s.delay_timer = 0 → (update_timers s).1.delay_timer = 0) ∧
    0 ≤ (update_timers s).1.delay_timer ∧
    (0 < s.sound_timer → (update_timers s).1.sound_timer = s.sound_timer - 1) ∧
    (s.sound_timer = 0 → (update_timers s).1.sound_timer = 0) ∧
    0 ≤ (update_timers s).1.sound_timer ∧
    ((update_timers s).2 = true ↔ s.sound_timer = 1) := by
  by_cases hd1 : 0 < s.delay_timer <;> by_cases hs1 : 0 < s.sound_timer <;>
    simp [update_timers, hd1, hs1, beq_iff_eq] <;> omega

/-- Claim C9 (witness): the timer theorem at delay timer 3 and sound
timer 1 (the tick that fires the sound event). -/
theorem update_timers_tick_spec_witness :
    (0 ≤ c9s.delay_timer ∧ 0 ≤ c9s.sound_timer) ∧
    ((0 < c9s.delay_timer → (update_timers c9s).1.delay_timer = c9s.delay_timer - 1) ∧
      (c9s.delay_timer = 0 → (update_timers c9s).1.delay_timer = 0) ∧
      0 ≤ (update_timers c9s).1.delay_timer ∧
      (0 < c9s.sound_timer → (update_timers c9s).1.sound_timer = c9s.sound_timer - 1) ∧
      (c9s.sound_timer = 0 → (update_timers c9s).1.sound_timer = 0) ∧
      0 ≤ (update_timers c9s).1.sound_timer ∧
      ((update_timers c9s).2 = true ↔ c9s.sound_timer = 1)) :=
  ⟨⟨by decide, by decide⟩, update_timers_tick_spec c9s (by decide) (by decide)⟩

/-- Claim C10: every word `0x0X00` (X in 0..15, low byte `0x00`) is a
SYS-style jump: the `_0000` splitter masks with `0xF0FF`, erasing the X
nibble, so the word reaches `_0nnn` and the program counter is set to
nnn = `0x0X00`, not treated as an unknown-opcode no-op. -/
theorem family0_x00_is_sys_jump (fuel : Nat) (s : Chip8) (X : Nat)
    (hX : X < 16)
    (h1 : s.memory s.program_counter = (X : Int))
    (h2 : s.memory (s.program_counter + 1) = 0) :
    (process_op_code fuel s).program_counter = 256 * (X : Int) := by
  have e1 : Int.lor ((X : Int) <<< (8 : Int)) 0 = 256 * (X : Int) := by
    interval_cases X <;> decide
  have e2 : Int.land (256 * (X : Int)) 0xF000 = 0 := by
    interval_cases X <;> decide
  have e3 : Int.land (256 * (X : Int)) 0xF0FF = 0 := by
    interval_cases X <;> decide
  have e4 : Int.land (256 * (X : Int)) 0x0FFF = 256 * (X : Int) := by
    interval_cases X <;> decide
  simp only [process_op_code, h1, h2, e1, e2]
  rw [runInstruction_0000 fuel _ e3]
  simp only [op_0nnn, e4]

/-- Claim C10 (witness): the SYS-jump theorem at the concrete machine
holding `0x0100` at `0x200`; the cycle sets the program counter to
`0x100`. -/
theorem family0_x00_is_sys_jump_witness :
    (1 < 16 ∧ c10s.memory c10s.program_counter = ((1 : Nat) : Int) ∧
      c10s.memory (c10s.program_counter + 1) = 0) ∧
    (process_op_code 2 c10s).program_counter = 256 * ((1 : Nat) : Int) :=
  ⟨⟨by decide, by decide, by decide⟩,
    family0_x00_is_sys_jump 2 c10s 1 (by decide) (by decide) (by decide)⟩

end ChipEight
